import Mathlib

/-!
Verification of the LOM (Local Object Metadata) subsystem of an AIStore
target node: shallow Lean embedding of `src/cluster/lom.go` and
`src/stats/target_stats.go`, with theorems settling the specification
claims about checksum validation, metadata loading, the LOM-cache
eviction runner, version increment, and the stats tracker's capacity
flag computation.

Conventions of the embedding:
- Go strings/ints become `String`/`Int`; `time.Duration` values are
  nanoseconds as in Go.
- The per-stripe `sync.Map` LOM cache becomes an association list
  `Cache` with `cacheLookup` / `cacheStore` / `cacheDelete`.
- Fallible external calls (xattr read `lmfs`, `os.Stat`, `Persist`,
  `computeXXHash`) are modelled by environment records carrying their
  outcome for the state under consideration.
- `cmn.Assert` failures (panics) are a distinguished outcome
  (`assertViolation`, or `Option.none` for `ReCache`/`Uncache`).
-/

/-- `cmn.Cksummer` value: an algorithm-tagged checksum (type, value),
as produced by `cmn.NewCksum`. -/
structure Cksum where
  typ : String
  val : String
deriving Repr, DecidableEq

/-- `cmn.ChecksumNone`. -/
def ChecksumNone : String := "none"

/-- `cmn.ChecksumXXHash`. -/
def ChecksumXXHash : String := "xxhash"

/-- `cmn.EqCksum`: two Cksummers are equal iff both are non-nil and
agree on type and value (nil compares unequal to everything). -/
def EqCksum : Option Cksum → Option Cksum → Bool
  | some a, some b => decide (a.typ = b.typ) && decide (a.val = b.val)
  | _, _ => false

/-- `lmeta` (src/cluster/lom.go): the cached local object metadata.
`copies` keeps the keys of the `fs.MPI` map (the copy FQNs). -/
structure lmeta where
  uname : String
  version : String
  size : Int
  atime : Int
  atimefs : Int
  bckID : Nat
  cksum : Option Cksum
  copies : List String
deriving Repr, DecidableEq

/-- One LOM cache stripe (`fs.LomCache`): an association of `hkey`
(uname) to `lmeta`, modelling the stripe's `sync.Map`. -/
abbrev Cache := List (String × lmeta)

/-- `sync.Map.Load`. -/
def cacheLookup (c : Cache) (k : String) : Option lmeta :=
  match List.find? (fun p => decide (p.1 = k)) c with
  | some p => some p.2
  | none => none

/-- `sync.Map.Delete`: the key is removed. -/
def cacheDelete (c : Cache) (k : String) : Cache :=
  List.filter (fun p => !decide (p.1 = k)) c

/-- `sync.Map.Store`: replace-or-insert at the key. -/
def cacheStore (c : Cache) (k : String) (v : lmeta) : Cache :=
  (k, v) :: cacheDelete c k

/-- Classified error of `lom.lmfs` (the xattr metadata read).
`enodata`/`enoent` are `syscall.ENODATA`/`syscall.ENOENT`; the two
`other*` cases distinguish whether `os.IsNotExist` holds of the error. -/
inductive LmfsErr
  | enodata
  | enoent
  | otherNotExist
  | otherExist
deriving Repr, DecidableEq

/-- `err == syscall.ENODATA || err == syscall.ENOENT` (src FromFS). -/
def LmfsErr.isMetaMissing : LmfsErr → Bool
  | .enodata => true
  | .enoent => true
  | _ => false

/-- `os.IsNotExist(err)`: true for ENOENT (and errors wrapping it),
false for ENODATA. -/
def LmfsErr.osIsNotExist : LmfsErr → Bool
  | .enoent => true
  | .otherNotExist => true
  | _ => false

/-- `os.Stat` error, classified by `os.IsNotExist`. -/
inductive StatErr
  | notExist
  | other
deriving Repr, DecidableEq

/-- The `os.FileInfo` data `FromFS` consumes: size and (via
`ios.GetATime`) the access time in nanoseconds. -/
structure FileInfo where
  size : Int
  atimeNs : Int
deriving Repr, DecidableEq

/-- The runtime part of a `LOM` handle used by the modelled methods:
names, cache key, bucket runtime context and the transient flags. -/
structure LomState where
  fqn : String
  hrwFqn : String
  hkey : String
  md : lmeta
  bid : Nat
  bckIsLocal : Bool
  exists_ : Bool
  loaded : Bool
  badCksum : Bool
deriving Repr, DecidableEq

/-- Environment of one `Load`/`FromFS` call: the outcome the
filesystem would give for the xattr read and the `os.Stat`. -/
structure LoadEnv where
  lmfsRes : Except LmfsErr lmeta
  statRes : Except StatErr FileInfo
deriving Repr

/-- Error result of `FromFS` (the `errstr` strings, tagged). -/
inductive FErr
  | errmeta
  | errstat
  | errsize
deriving Repr, DecidableEq

/-- Result of `FromFS`: updated LOM, `errstr` (none = ""), and whether
`lom.T.FSHC` (the filesystem health check) was invoked. -/
structure FSOut where
  lom : LomState
  errstr : Option FErr
  fshc : Bool
deriving Repr

/-- `os.IsNotExist(errex)` of the `os.Stat` outcome. -/
def statNotExist : Except StatErr FileInfo → Bool
  | .error .notExist => true
  | _ => false

/-- `LOM.FromFS` (src/cluster/lom.go): read the xattr metadata, then
stat the file; classify absence vs corruption vs I/O error. -/
def FromFS (env : LoadEnv) (lom0 : LomState) : FSOut :=
  let lom := {lom0 with exists_ := true}
  match env.lmfsRes with
  | .error e =>
    let lom := {lom with exists_ := false}
    if e.isMetaMissing = true ∧ statNotExist env.statRes = true then
      ⟨lom, none, false⟩
    else if e.osIsNotExist = false then
      ⟨lom, some .errmeta, true⟩
    else
      ⟨lom, none, false⟩
  | .ok xmd =>
    let lom := {lom with md := xmd}
    match env.statRes with
    | .error .notExist => ⟨{lom with exists_ := false}, none, false⟩
    | .error .other => ⟨{lom with exists_ := false}, some .errstat, true⟩
    | .ok finfo =>
      if lom.md.size ≠ finfo.size then
        ⟨lom, some .errsize, false⟩
      else
        ⟨{lom with md := {lom.md with atime := finfo.atimeNs, atimefs := finfo.atimeNs}},
          none, false⟩

/-- Result of `Load`: updated LOM and cache, the returned
`(fromCache, errstr)`, plus instrumentation: whether a `cache.Store`
happened (`stored`) and whether FSHC was called. -/
structure LoadOut where
  lom : LomState
  cache : Cache
  fromCache : Bool
  errstr : Option FErr
  stored : Bool
  fshc : Bool
deriving Repr

/-- The slow path of `LOM.Load`: `FromFS`, then on success stamp the
bucket ID and, when `add` holds, store the entry into the cache. -/
def loadSlow (env : LoadEnv) (lom : LomState) (cache : Cache) (add fromCache : Bool) : LoadOut :=
  let r := FromFS env lom
  if r.errstr = none ∧ r.lom.exists_ = true then
    let lom1 := {r.lom with md := {r.lom.md with bckID := r.lom.bid}}
    if add = true then
      ⟨lom1, cacheStore cache lom1.hkey lom1.md, fromCache, none, true, r.fshc⟩
    else
      ⟨lom1, cache, fromCache, none, false, r.fshc⟩
  else
    ⟨r.lom, cache, fromCache, r.errstr, false, r.fshc⟩

/-- `LOM.Load` (src/cluster/lom.go). Fast path only when
`FQN == HrwFQN`: copy the cached entry in (deleting it when
`add = false`) and re-check bucket existence (`existsInBucket`, which
uncaches stale entries); otherwise `add` is forced to `false` and the
slow path (`FromFS`) runs. `bmdExists` abstracts
`bmd.Exists(bucket, bckID, local)` as a function of the entry's
bucket ID. -/
def Load (env : LoadEnv) (bmdExists : Nat → Bool) (cache : Cache) (lom0 : LomState)
    (add : Bool) : LoadOut :=
  let lom := {lom0 with loaded := true}
  if lom.fqn = lom.hrwFqn then
    match cacheLookup cache lom.hkey with
    | some md =>
      let lom1 := {lom with exists_ := true, md := md}
      let cache1 := if add = true then cache else cacheDelete cache lom.hkey
      if lom1.bckIsLocal = true ∧ bmdExists lom1.md.bckID = false then
        loadSlow env {lom1 with exists_ := false} (cacheDelete cache1 lom1.hkey) add true
      else
        ⟨lom1, cache1, true, none, false, false⟩
    | none => loadSlow env lom cache add false
  else
    loadSlow env lom cache false false

/-- `LOM.ReCache`: asserts `FQN == HrwFQN` (`none` models the
`cmn.Assert` panic), then stores a copy of the metadata stamped with
the bucket ID. -/
def ReCache (lom : LomState) (cache : Cache) : Option Cache :=
  if lom.fqn = lom.hrwFqn then
    some (cacheStore cache lom.hkey {lom.md with bckID := lom.bid})
  else
    none

/-- `LOM.Uncache`: asserts `FQN == HrwFQN`, then deletes the entry. -/
def Uncache (lom : LomState) (cache : Cache) : Option Cache :=
  if lom.fqn = lom.hrwFqn then
    some (cacheDelete cache lom.hkey)
  else
    none

/-- `LOM.IsCopy`: exactly one copy, pointing at the hrw location. -/
def IsCopy (lom : LomState) : Bool :=
  decide (lom.md.copies.length = 1) && decide (lom.hrwFqn ∈ lom.md.copies)

/-- Digits fold of `strconv.Atoi`. -/
def atoiDigits (ds : List Char) : Nat :=
  ds.foldl (fun a c => a * 10 + (c.toNat - 48)) 0

/-- `strconv.Atoi`: optional sign, non-empty decimal digit run,
within the 64-bit int range; anything else is an error (`none`). -/
def atoi (s : String) : Option Int :=
  let p : Bool × List Char :=
    match s.data with
    | '+' :: rest => (false, rest)
    | '-' :: rest => (true, rest)
    | l => (false, l)
  let neg := p.1
  let ds := p.2
  if ds.isEmpty = true then none
  else if ds.all Char.isDigit = true then
    let n := atoiDigits ds
    if neg = true then
      if n ≤ 2 ^ 63 then some (-(n : Int)) else none
    else
      if n < 2 ^ 63 then some (n : Int) else none
  else none

/-- Error result of `IncObjectVersion` (`errstr`, tagged by origin). -/
inductive IOVErr
  | lmfsErr
  | atoiErr
deriving Repr, DecidableEq

/-- `LOM.IncObjectVersion` (src/cluster/lom.go): `"1"` when the object
does not exist or has no stored version; otherwise parse the stored
version with `strconv.Atoi` and format `n+1`. `ex` is `lom.exists`,
`r` the outcome of `lom.lmfs(false)`. -/
def IncObjectVersion (ex : Bool) (r : Except LmfsErr lmeta) : Except IOVErr String :=
  if ex = false then Except.ok "1"
  else
    match r with
    | .error _ => Except.error .lmfsErr
    | .ok md =>
      if md.version = "" then Except.ok "1"
      else
        match atoi md.version with
        | none => Except.error .atoiErr
        | some n => Except.ok (toString (n + 1))

/-- Environment of a `ValidateChecksum`/`ValidateDiskChecksum` call:
the bucket's checksum type (`CksumConf().Type`), the outcome of
`computeXXHash` on the current file content (`fileOk`, `fileCksum`),
and whether `Persist` would succeed. The object is unmodified while
these are held fixed. -/
structure VCEnv where
  cksumType : String
  fileOk : Bool
  fileCksum : String
  persistOk : Bool
deriving Repr

/-- Mutable state touched by checksum validation: the LOM handle, its
cache stripe, and the persisted xattr metadata (`lmfs` reads it,
`Persist` writes it). -/
structure ObjState where
  lom : LomState
  cache : Cache
  xattr : Except LmfsErr lmeta
deriving Repr

/-- Tagged `errstr` results of checksum validation. -/
inductive VCErrKind
  | lmfs
  | badCksum
  | compute
  | persist
deriving Repr, DecidableEq

/-- Outcome of a checksum-validation call; `assertViolation` models a
`cmn.Assert` panic. -/
inductive VCOutcome
  | ok
  | vcErr (e : VCErrKind)
  | assertViolation
deriving Repr, DecidableEq

/-- The `storedCksum` extraction: value of the in-memory checksum, or
`""` when nil. -/
def storedOf : Option Cksum → String
  | some ck => ck.val
  | none => ""

/-- `cmn.Assert(storedCksum != "")` guard: holds vacuously when the
in-memory checksum is nil. -/
def cksumAssertOk : Option Cksum → Bool
  | some ck => !decide (ck.val = "")
  | none => true

/-- `LOM.ValidateDiskChecksum` (src/cluster/lom.go): compare the
in-memory checksum against the checksum of the on-disk content;
on a first-time compute (no stored checksum) set it, `Persist` and
`ReCache`, rolling the in-memory value back if `Persist` fails. -/
def ValidateDiskChecksum (env : VCEnv) (s : ObjState) : ObjState × VCOutcome :=
  if env.cksumType = ChecksumNone then (s, .ok)
  else if cksumAssertOk s.lom.md.cksum = false then (s, .assertViolation)
  else if env.cksumType ≠ ChecksumXXHash then (s, .assertViolation)
  else if env.fileOk = false then (s, .vcErr .compute)
  else
    if storedOf s.lom.md.cksum = "" then
      if env.persistOk = false then (s, .vcErr .persist)
      else if s.lom.fqn ≠ s.lom.hrwFqn then
        ({s with
            lom := {s.lom with
                      md := {s.lom.md with cksum := some ⟨env.cksumType, env.fileCksum⟩}},
            xattr := .ok {s.lom.md with cksum := some ⟨env.cksumType, env.fileCksum⟩}},
          .assertViolation)
      else
        ({s with
            lom := {s.lom with
                      md := {s.lom.md with cksum := some ⟨env.cksumType, env.fileCksum⟩},
                      loaded := true},
            xattr := .ok {s.lom.md with cksum := some ⟨env.cksumType, env.fileCksum⟩},
            cache := cacheStore s.cache s.lom.hkey
              {s.lom.md with cksum := some ⟨env.cksumType, env.fileCksum⟩,
                             bckID := s.lom.bid}},
          .ok)
    else
      if EqCksum s.lom.md.cksum (some ⟨env.cksumType, env.fileCksum⟩) = true then (s, .ok)
      else if s.lom.fqn ≠ s.lom.hrwFqn then
        ({s with lom := {s.lom with badCksum := true}}, .assertViolation)
      else
        ({s with lom := {s.lom with badCksum := true},
                 cache := cacheDelete s.cache s.lom.hkey}, .vcErr .badCksum)

/-- `LOM.ValidateChecksum` (src/cluster/lom.go): read the xattr
checksum `v`; trust when both `v` and the in-memory checksum are nil;
on disagreement mark `BadCksum`, `Uncache` and fail; otherwise return
early when a stored checksum exists and `recompute` is off, else fall
through to `ValidateDiskChecksum`. -/
def ValidateChecksum (env : VCEnv) (recompute : Bool) (s : ObjState) : ObjState × VCOutcome :=
  if env.cksumType = ChecksumNone then (s, .ok)
  else if cksumAssertOk s.lom.md.cksum = false then (s, .assertViolation)
  else
    match s.xattr with
    | .error _ => (s, .vcErr .lmfs)
    | .ok xmd =>
      if recompute = false ∧ s.lom.md.cksum = none ∧ xmd.cksum = none then (s, .ok)
      else if ¬(recompute = true ∧ xmd.cksum = none ∧ s.lom.md.cksum = none) ∧
          EqCksum s.lom.md.cksum xmd.cksum = false then
        if s.lom.fqn ≠ s.lom.hrwFqn then
          ({s with lom := {s.lom with badCksum := true}}, .assertViolation)
        else
          ({s with lom := {s.lom with badCksum := true},
                   cache := cacheDelete s.cache s.lom.hkey}, .vcErr .badCksum)
      else if storedOf s.lom.md.cksum ≠ "" ∧ recompute = false then (s, .ok)
      else ValidateDiskChecksum env s

/-- `time.Second` in nanoseconds. -/
def second : Int := 1000000000

/-- `time.Minute` in nanoseconds. -/
def minute : Int := 60 * second

/-- `time.Hour` in nanoseconds. -/
def hour : Int := 60 * minute

/-- `oomEvictAtime` (src/cluster/lom.go). -/
def oomEvictAtime : Int := minute

/-- `oomTimeIntval`. -/
def oomTimeIntval : Int := 10 * second

/-- `mpeEvictAtime`. -/
def mpeEvictAtime : Int := 5 * minute

/-- `mpeTimeIntval`. -/
def mpeTimeIntval : Int := minute

/-- `mphEvictAtime`. -/
def mphEvictAtime : Int := 10 * minute

/-- `mphTimeIntval`. -/
def mphTimeIntval : Int := 2 * minute

/-- `mpnEvictAtime`. -/
def mpnEvictAtime : Int := hour

/-- `mpnTimeIntval`. -/
def mpnTimeIntval : Int := 10 * minute

/-- `minSize2Evict = cmn.KiB * 256`. -/
def minSize2Evict : Nat := 256 * 1024

/-- `minev = int(minSize2Evict / unsafe.Sizeof(md))`; the lmeta size
is platform-dependent (88 bytes on linux/amd64), so it is a
parameter. -/
def minevOf (sizeofLmeta : Nat) : Nat := minSize2Evict / sizeofLmeta

/-- The memory-pressure levels the runner's `switch` distinguishes;
every `memsys` level other than OOM/Extreme/High takes the `default`
arm, represented by `Normal`. -/
inductive MemPressure
  | OOM
  | Extreme
  | High
  | Normal
deriving Repr, DecidableEq

/-- The pressure → eviction-age mapping of the first `switch` in
`LomCacheRunner.Run`. -/
def evictAge : MemPressure → Int
  | .OOM => oomEvictAtime
  | .Extreme => mpeEvictAtime
  | .High => mphEvictAtime
  | .Normal => mpnEvictAtime

/-- The pressure → next-tick-interval mapping of the second `switch`
in `LomCacheRunner.Run`. -/
def tickIntval : MemPressure → Int
  | .OOM => oomTimeIntval
  | .Extreme => mpeTimeIntval
  | .High => mphTimeIntval
  | .Normal => mpnTimeIntval

/-- Accumulator of the `feviat` range callback in
`LomCacheRunner.work`: the two atomic counters, the entries kept in
the stripe, and the entries whose atime write-back was performed. -/
structure WorkAcc where
  evicted : Nat
  total : Nat
  kept : Cache
  flushed : List lmeta
deriving Repr, DecidableEq

/-- The `feviat` callback of `LomCacheRunner.work` for one entry:
count it; keep it when `now - atime < d`; otherwise, when
`atime != atimefs` and the LOM can be reconstructed from the bucket
metadata (`bmdOk`, abstracting `lomFromLmeta` succeeding), flush the
atime (`flushAtime`/`chtimes`); then delete the entry and count the
eviction. -/
def feviat (now d : Int) (bmdOk : lmeta → Bool) (acc : WorkAcc) (e : String × lmeta) : WorkAcc :=
  let md := e.2
  let total := acc.total + 1
  if now - md.atime < d then
    {acc with total := total, kept := acc.kept ++ [e]}
  else
    let flushed :=
      if md.atime ≠ md.atimefs ∧ bmdOk md = true then acc.flushed ++ [md] else acc.flushed
    {acc with total := total, evicted := acc.evicted + 1, flushed := flushed}

/-- `cache.M.Range(feviat)` over one stripe. -/
def workCache (now d : Int) (bmdOk : lmeta → Bool) (c : Cache) : WorkAcc :=
  c.foldl (feviat now d bmdOk) ⟨0, 0, [], []⟩

/-- `LomCacheRunner.work` over all stripes: returns
`(numevicted, numtotal, stripes after deletion, flushed entries)`.
When the runner is stopping the callback bails out immediately and
nothing is counted or deleted. -/
def work (stopping : Bool) (now d : Int) (bmdOk : lmeta → Bool) (caches : List Cache) :
    Nat × Nat × List Cache × List lmeta :=
  if stopping = true then (0, 0, caches, [])
  else
    let accs := caches.map (workCache now d bmdOk)
    ((accs.map WorkAcc.evicted).sum, (accs.map WorkAcc.total).sum,
      accs.map WorkAcc.kept, (accs.map WorkAcc.flushed).flatten)

/-- Observable result of one `timer.C` iteration of
`LomCacheRunner.Run`: the counters and cache effects of `work`, the
duration passed to `timer.Reset` (`none` when `Reset` is not called),
and the final value of `d` (as logged). -/
structure TickOut where
  evicted : Nat
  total : Nat
  caches : List Cache
  flushed : List lmeta
  timerReset : Option Int
  dFinal : Int
deriving Repr

/-- One `timer.C` iteration of `LomCacheRunner.Run`: map the memory
pressure to the eviction age, run `work`, then either (evicted below
threshold) just set `d` to the normal interval, or re-query the
pressure for the interval and `timer.Reset(d)`. NOTE: faithfully to
the source, `timer.Reset` is only invoked in the `else` branch. -/
def runTick (p : MemPressure) (minev : Nat) (bmdOk : lmeta → Bool) (stopping : Bool)
    (now : Int) (caches : List Cache) : TickOut :=
  let d := evictAge p
  let r := work stopping now d bmdOk caches
  let evicted := r.1
  let total := r.2.1
  let caches1 := r.2.2.1
  let flushed := r.2.2.2
  if evicted < minev then
    ⟨evicted, total, caches1, flushed, none, mpnTimeIntval⟩
  else
    ⟨evicted, total, caches1, flushed, some (tickIntval p), tickIntval p⟩

/-- Bit flags of the upstream `cos.NodeStateFlags` enumeration (the
package is not under src/; modelled from the spec's node-state flags —
only bit-distinctness matters to the claims): out-of-space. -/
def OOS : Nat := 1 <<< 8

/-- `cos.LowCapacity` node-state flag bit. -/
def LowCapacity : Nat := 1 <<< 11

/-- `cos.DiskFault` node-state flag bit. -/
def DiskFault : Nat := 1 <<< 13

/-- Environment of one `Trunner._cap` call
(src/stats/target_stats.go): the outcome of `fs.CapPeriodic`
(`cs` observables, `updated`, `err`, `errCap`), configuration, the
mountpath-alert predicate, and the current node-state flags. -/
structure CapEnv where
  err : Bool
  updated : Bool
  errCap : Bool
  csIsOOS : Bool
  csErr : Bool
  csPctMax : Int
  cleanupWM : Int
  hasAlertsFn : Bool
  flags : Nat
deriving Repr

/-- Result of `Trunner._cap`: the `(set, clr)` node-state flag masks
and whether `t.OOS` (the space-manager trigger) was invoked. -/
structure CapOut where
  set : Nat
  clr : Nat
  oosCalled : Bool
deriving Repr, DecidableEq

/-- `Trunner._cap` (src/stats/target_stats.go): early-out on a
`CapPeriodic` error or when nothing changed; trigger `t.OOS` on a
capacity error or when `PctMax` exceeds the cleanup watermark;
possibly clear `DiskFault`; finally compute the OOS / LowCapacity
set/clear masks from the capacity snapshot. -/
def trunnerCap (e : CapEnv) : CapOut :=
  if e.err = true then ⟨0, 0, false⟩
  else if e.updated = false ∧ e.errCap = false then ⟨0, 0, false⟩
  else
    let hasAlerts := e.updated && e.hasAlertsFn
    let oosCalled := e.errCap || decide (e.csPctMax > e.cleanupWM)
    let clr0 : Nat :=
      if hasAlerts = false ∧ e.flags &&& DiskFault ≠ 0 ∧ e.updated = true then DiskFault else 0
    if e.csIsOOS = true then ⟨OOS, clr0, oosCalled⟩
    else if e.csErr = true then ⟨LowCapacity, OOS, oosCalled⟩
    else ⟨0, OOS ||| LowCapacity, oosCalled⟩

/-- C5: IncObjectVersion returns "1" for a non-existing object or an
empty stored version, returns the decimal successor of a numeric
stored version, and fails on a non-numeric stored version. -/
theorem incObjectVersion_spec :
    (∀ r : Except LmfsErr lmeta, IncObjectVersion false r = Except.ok "1") ∧
    (∀ md : lmeta, md.version = "" → IncObjectVersion true (Except.ok md) = Except.ok "1") ∧
    (∀ (md : lmeta) (n : Int), atoi md.version = some n →
      IncObjectVersion true (Except.ok md) = Except.ok (toString (n + 1))) ∧
    (∀ md : lmeta, md.version ≠ "" → atoi md.version = none →
      IncObjectVersion true (Except.ok md) = Except.error IOVErr.atoiErr) := by
  refine ⟨fun r => rfl, fun md h => by simp [IncObjectVersion, h], ?_, ?_⟩
  · intro md n h
    have hv : md.version ≠ "" := by
      intro he
      rw [he] at h
      have : atoi "" = none := rfl
      rw [this] at h
      exact Option.noConfusion h
    simp [IncObjectVersion, hv, h]
  · intro md hv h
    simp [IncObjectVersion, hv, h]

/-- Concrete lmeta with stored version "7". -/
def mdV7 : lmeta := ⟨"b/o", "7", 1024, 0, 0, 1, none, []⟩

/-- C5 witness: version "7" increments to "8"; a non-existing object
yields "1". -/
theorem incObjectVersion_spec_witness :
    IncObjectVersion true (Except.ok mdV7) = Except.ok "8" ∧
    IncObjectVersion false (Except.error LmfsErr.enoent) = Except.ok "1" := by
  constructor
  · have h := incObjectVersion_spec.2.2.1 mdV7 7 (by decide)
    simpa using h
  · exact incObjectVersion_spec.1 _

/-- C6: when the xattr record is absent (ENODATA/ENOENT) and the file
is absent too, FromFS reports exists = false with no error and no
health-check escalation, and Load (on a cache miss) does the same. -/
theorem fromFS_both_absent (env : LoadEnv) (lom : LomState) (e : LmfsErr)
    (h1 : env.lmfsRes = Except.error e) (h2 : e.isMetaMissing = true)
    (h3 : env.statRes = Except.error StatErr.notExist) :
    FromFS env lom = ⟨{lom with exists_ := false}, none, false⟩ ∧
    (∀ (bmdE : Nat → Bool) (cache : Cache) (add : Bool),
      cacheLookup cache lom.hkey = none →
      Load env bmdE cache lom add =
        ⟨{lom with loaded := true, exists_ := false}, cache, false, none, false, false⟩) := by
  have hf : ∀ x : LomState, FromFS env x = ⟨{x with exists_ := false}, none, false⟩ := by
    intro x
    simp [FromFS, h1, h2, h3, statNotExist]
  refine ⟨hf lom, ?_⟩
  intro bmdE cache add hc
  by_cases hq : lom.fqn = lom.hrwFqn
  · simp [Load, hq, hc, loadSlow, hf]
  · simp [Load, hq, loadSlow, hf]

/-- Concrete LOM handle at its hrw location. -/
def lomC7 : LomState :=
  ⟨"/mp/local/b/obj/o", "/mp/local/b/obj/o", "b/o",
    ⟨"b/o", "", 1024, 0, 0, 1, none, []⟩, 1, true, false, false, false⟩

/-- C7 counterexample: the file exists (stat succeeds) and the xattr
record is missing (ENODATA), yet FromFS returns an errmeta error and
escalates to the filesystem health check — not the benign no-error
outcome the claim states (FromFS never consults the checksum
configuration at all). -/
theorem fromFS_meta_missing_counterexample :
    (FromFS ⟨Except.error LmfsErr.enodata, Except.ok ⟨1024, 77⟩⟩ lomC7).errstr =
        some FErr.errmeta ∧
      (FromFS ⟨Except.error LmfsErr.enodata, Except.ok ⟨1024, 77⟩⟩ lomC7).fshc = true := by
  constructor <;> rfl

/-- C7 amended: when the file exists but the xattr read fails with
ENODATA (missing record), FromFS returns an errmeta error and calls
the filesystem health check, regardless of checksum configuration;
only an ENOENT xattr error (or absence of the file as well) is benign
"no stored metadata". -/
theorem fromFS_meta_missing_file_present :
    (∀ (env : LoadEnv) (lom : LomState) (fi : FileInfo),
      env.lmfsRes = Except.error LmfsErr.enodata → env.statRes = Except.ok fi →
      FromFS env lom = ⟨{lom with exists_ := false}, some FErr.errmeta, true⟩) ∧
    (∀ (env : LoadEnv) (lom : LomState) (fi : FileInfo),
      env.lmfsRes = Except.error LmfsErr.enoent → env.statRes = Except.ok fi →
      FromFS env lom = ⟨{lom with exists_ := false}, none, false⟩) := by
  constructor <;>
    (intro env lom fi h1 h2
     simp [FromFS, h1, h2, statNotExist, LmfsErr.isMetaMissing, LmfsErr.osIsNotExist])

/-- C7 amended witness. -/
theorem fromFS_meta_missing_file_present_witness :
    FromFS ⟨Except.error LmfsErr.enodata, Except.ok ⟨7, 3⟩⟩ lomC7 =
      ⟨{lomC7 with exists_ := false}, some FErr.errmeta, true⟩ :=
  fromFS_meta_missing_file_present.1 ⟨Except.error LmfsErr.enodata, Except.ok ⟨7, 3⟩⟩
    lomC7 ⟨7, 3⟩ rfl rfl

/-- C10: first-time checksum computation whose Persist fails rolls the
in-memory checksum back and returns the persist error, leaving the
whole state (metadata, cache, xattr) unchanged. -/
theorem validateDiskChecksum_persist_rollback (env : VCEnv) (s : ObjState)
    (ht : env.cksumType = ChecksumXXHash) (hm : s.lom.md.cksum = none)
    (hf : env.fileOk = true) (hp : env.persistOk = false) :
    ValidateDiskChecksum env s = (s, VCOutcome.vcErr VCErrKind.persist) := by
  simp [ValidateDiskChecksum, ht, hm, hf, hp, cksumAssertOk, storedOf,
    ChecksumXXHash, ChecksumNone]

/-- Concrete checksum-validation state: no stored checksum at all. -/
def sNoCksum : ObjState :=
  ⟨{lomC7 with md := {lomC7.md with cksum := none}}, [],
    Except.ok {lomC7.md with cksum := none}⟩

/-- C10 witness. -/
theorem validateDiskChecksum_persist_rollback_witness :
    ValidateDiskChecksum ⟨ChecksumXXHash, true, "ab12", false⟩ sNoCksum =
      (sNoCksum, VCOutcome.vcErr VCErrKind.persist) :=
  validateDiskChecksum_persist_rollback ⟨ChecksumXXHash, true, "ab12", false⟩ sNoCksum
    rfl rfl rfl rfl

/-- C2: the cache runner's rescheduling is broken when fewer than
minev entries were evicted: the code only assigns d = 10 min for the
log line and never calls timer.Reset in that branch, so the (one-shot)
timer never fires again and no next tick occurs — evaluated here at a
tick with zero evictions (empty caches, normal pressure, minev for the
88-byte lmeta). -/
theorem lomCacheRunner_no_timer_reset :
    runTick MemPressure.Normal (minevOf 88) (fun _ => true) false 0 [] =
      ⟨0, 0, [], [], none, mpnTimeIntval⟩ := by
  rfl

/-- C6 witness: concrete absent object (ENODATA xattr, missing file),
empty cache. -/
theorem fromFS_both_absent_witness :
    FromFS ⟨Except.error LmfsErr.enodata, Except.error StatErr.notExist⟩ lomC7 =
      ⟨{lomC7 with exists_ := false}, none, false⟩ ∧
    Load ⟨Except.error LmfsErr.enodata, Except.error StatErr.notExist⟩ (fun _ => true)
        [] lomC7 false =
      ⟨{lomC7 with loaded := true, exists_ := false}, [], false, none, false, false⟩ := by
  have h := fromFS_both_absent
    ⟨Except.error LmfsErr.enodata, Except.error StatErr.notExist⟩ lomC7
    LmfsErr.enodata rfl rfl rfl
  exact ⟨h.1, h.2 (fun _ => true) [] false rfl⟩

/-- `loadSlow` with `add = false` never stores into the cache. -/
lemma loadSlow_false_not_stored (env : LoadEnv) (lom : LomState) (cache : Cache)
    (fromCache : Bool) : (loadSlow env lom cache false fromCache).stored = false := by
  unfold loadSlow
  by_cases h : (FromFS env lom).errstr = none ∧ (FromFS env lom).lom.exists_ = true <;>
    simp [h]

/-- C4: entries reach the cache only at the hrw location — a Load that
stored into the cache implies FQN = hrw-FQN (a non-hrw FQN forces
add = false), and ReCache/Uncache assert FQN = hrw-FQN (they panic,
i.e. return none, otherwise); hence a copy, residing at a non-hrw FQN,
is never cached as a top-level entry. -/
theorem cache_only_at_hrw :
    (∀ (env : LoadEnv) (bmdE : Nat → Bool) (cache : Cache) (lom : LomState) (add : Bool),
      (Load env bmdE cache lom add).stored = true → lom.fqn = lom.hrwFqn) ∧
    (∀ (lom : LomState) (cache : Cache), lom.fqn ≠ lom.hrwFqn →
      ReCache lom cache = none ∧ Uncache lom cache = none) := by
  constructor
  · intro env bmdE cache lom add h
    by_cases hq : lom.fqn = lom.hrwFqn
    · exact hq
    · exfalso
      simp [Load, hq, loadSlow_false_not_stored] at h
  · intro lom cache hq
    simp [ReCache, Uncache, hq]

/-- Concrete misplaced LOM handle (FQN differs from hrw-FQN). -/
def lomMisplaced : LomState :=
  ⟨"/mp2/local/b/obj/o", "/mp1/local/b/obj/o", "b/o",
    ⟨"b/o", "", 1024, 0, 0, 1, none, ["/mp1/local/b/obj/o"]⟩, 1, true, false, false, false⟩

/-- C4 witness: for a misplaced handle ReCache and Uncache refuse
(assert), and a Load never stores. -/
theorem cache_only_at_hrw_witness :
    (ReCache lomMisplaced [] = none ∧ Uncache lomMisplaced [] = none) ∧
    ((Load ⟨Except.error LmfsErr.enoent, Except.error StatErr.notExist⟩ (fun _ => true)
        [] lomMisplaced true).stored = true → lomMisplaced.fqn = lomMisplaced.hrwFqn) := by
  refine ⟨cache_only_at_hrw.2 lomMisplaced [] (by decide), ?_⟩
  exact cache_only_at_hrw.1 _ _ _ _ _

/-- C9: when the capacity check proceeds (CapPeriodic returned no
error, and the snapshot was updated or a capacity error is present),
the node-state flag masks follow the snapshot: OOS is set when out of
space; otherwise a capacity error sets LowCapacity and clears OOS;
otherwise both OOS and LowCapacity are cleared. -/
theorem trunnerCap_flags (e : CapEnv) (h1 : e.err = false)
    (h2 : e.updated = true ∨ e.errCap = true) :
    (e.csIsOOS = true → (trunnerCap e).set &&& OOS ≠ 0) ∧
    (e.csIsOOS = false → e.csErr = true →
      (trunnerCap e).set &&& LowCapacity ≠ 0 ∧ (trunnerCap e).clr &&& OOS ≠ 0) ∧
    (e.csIsOOS = false → e.csErr = false →
      (trunnerCap e).clr &&& OOS ≠ 0 ∧ (trunnerCap e).clr &&& LowCapacity ≠ 0) := by
  have hcond : ¬(e.updated = false ∧ e.errCap = false) := by
    rcases h2 with h | h <;> simp [h]
  refine ⟨?_, ?_, ?_⟩
  · intro hoos
    simp [trunnerCap, h1, hcond, hoos, OOS]
  · intro hoos herr
    simp [trunnerCap, h1, hcond, hoos, herr, OOS, LowCapacity]
  · intro hoos herr
    simp [trunnerCap, h1, hcond, hoos, herr, OOS, LowCapacity]

/-- C9 witness: an updated snapshot with a capacity error but not out
of space sets LowCapacity and clears OOS. -/
theorem trunnerCap_flags_witness :
    ((trunnerCap ⟨false, true, false, false, true, 85, 80, false, 0⟩).set &&&
        LowCapacity ≠ 0) ∧
      ((trunnerCap ⟨false, true, false, false, true, 85, 80, false, 0⟩).clr &&&
        OOS ≠ 0) :=
  (trunnerCap_flags ⟨false, true, false, false, true, 85, 80, false, 0⟩ rfl
    (Or.inl rfl)).2.1 rfl rfl

/-- C3: whenever the xattr-stored checksum disagrees with the
in-memory one (not both nil) and checksumming is enabled,
ValidateChecksum — for either value of recompute — marks BadCksum,
removes the entry from the cache and returns the cksum-mismatch
error, leaving everything else unchanged. -/
theorem validateChecksum_mismatch (env : VCEnv) (recompute : Bool) (s : ObjState)
    (xmd : lmeta)
    (ht : env.cksumType ≠ ChecksumNone)
    (hx : s.xattr = Except.ok xmd)
    (hnb : ¬(s.lom.md.cksum = none ∧ xmd.cksum = none))
    (hne : EqCksum s.lom.md.cksum xmd.cksum = false)
    (hwf : cksumAssertOk s.lom.md.cksum = true)
    (hhrw : s.lom.fqn = s.lom.hrwFqn) :
    ValidateChecksum env recompute s =
      ({s with lom := {s.lom with badCksum := true},
               cache := cacheDelete s.cache s.lom.hkey}, VCOutcome.vcErr VCErrKind.badCksum) := by
  have hc1 : ¬(recompute = false ∧ s.lom.md.cksum = none ∧ xmd.cksum = none) := by
    rintro ⟨-, hm, hv⟩
    exact hnb ⟨hm, hv⟩
  have hc2 : ¬(recompute = true ∧ xmd.cksum = none ∧ s.lom.md.cksum = none) := by
    rintro ⟨-, hv, hm⟩
    exact hnb ⟨hm, hv⟩
  simp [ValidateChecksum, ht, hx, hwf, hc1, hc2, hne, hhrw]

/-- Concrete state whose in-memory and xattr checksums disagree. -/
def sMismatch : ObjState :=
  ⟨{lomC7 with md := {lomC7.md with cksum := some ⟨ChecksumXXHash, "aa11"⟩}}, 
    [("b/o", {lomC7.md with cksum := some ⟨ChecksumXXHash, "aa11"⟩})],
    Except.ok {lomC7.md with cksum := some ⟨ChecksumXXHash, "bb22"⟩}⟩

/-- C3 witness: a concrete mismatch (with recompute = true) sets
BadCksum, empties the cache stripe, and fails with the mismatch
error. -/
theorem validateChecksum_mismatch_witness :
    ValidateChecksum ⟨ChecksumXXHash, true, "aa11", true⟩ true sMismatch =
      ({sMismatch with lom := {sMismatch.lom with badCksum := true},
                       cache := cacheDelete sMismatch.cache sMismatch.lom.hkey},
        VCOutcome.vcErr VCErrKind.badCksum) := by
  exact validateChecksum_mismatch ⟨ChecksumXXHash, true, "aa11", true⟩ true sMismatch
    {lomC7.md with cksum := some ⟨ChecksumXXHash, "bb22"⟩}
    (by decide) rfl (by decide) (by decide) (by decide) rfl

/-- Characterization of the `feviat` range fold over one stripe, for
an arbitrary starting accumulator. -/
lemma feviat_foldl (now d : Int) (bmdOk : lmeta → Bool) (c : Cache) :
    ∀ acc : WorkAcc,
      c.foldl (feviat now d bmdOk) acc =
        ⟨acc.evicted + c.countP (fun e => !decide (now - e.2.atime < d)),
         acc.total + c.length,
         acc.kept ++ c.filter (fun e => decide (now - e.2.atime < d)),
         acc.flushed ++ (c.filter (fun e => !decide (now - e.2.atime < d) &&
            (!decide (e.2.atime = e.2.atimefs) && bmdOk e.2))).map Prod.snd⟩ := by
  induction c with
  | nil => intro acc; simp
  | cons e rest ih =>
    intro acc
    rw [List.foldl_cons, ih]
    by_cases h : now - e.2.atime < d
    · have hk : decide (now - e.2.atime < d) = true := by simp [h]
      have hf : feviat now d bmdOk acc e =
          ⟨acc.evicted, acc.total + 1, acc.kept ++ [e], acc.flushed⟩ := by
        simp [feviat, h]
      rw [hf]
      simp [List.countP_cons, List.filter_cons, hk]
      omega
    · have hk : decide (now - e.2.atime < d) = false := by simp [h]
      by_cases h2 : e.2.atime ≠ e.2.atimefs ∧ bmdOk e.2 = true
      · have hne : decide (e.2.atime = e.2.atimefs) = false := by simp [h2.1]
        have hf : feviat now d bmdOk acc e =
            ⟨acc.evicted + 1, acc.total + 1, acc.kept, acc.flushed ++ [e.2]⟩ := by
          simp [feviat, h, h2]
        rw [hf]
        simp [List.countP_cons, List.filter_cons, hk, hne, h2.2]
        omega
      · have hf : feviat now d bmdOk acc e =
            ⟨acc.evicted + 1, acc.total + 1, acc.kept, acc.flushed⟩ := by
          simp [feviat, h, h2]
        rw [hf]
        rcases Decidable.not_and_iff_or_not.mp h2 with h3 | h3
        · have hne : decide (e.2.atime = e.2.atimefs) = true := by
            simp [Decidable.not_not.mp h3]
          simp [List.countP_cons, List.filter_cons, hk, hne]
          omega
        · have hbm : bmdOk e.2 = false := by
            simpa using h3
          simp [List.countP_cons, List.filter_cons, hk, hbm]
          omega

/-- One stripe of `work` computes: total = stripe size, kept entries =
those with `now - atime < d`, evicted count = the rest, flushed = the
evicted entries with unsynced atime and reconstructible LOM. -/
lemma workCache_eq (now d : Int) (bmdOk : lmeta → Bool) (c : Cache) :
    workCache now d bmdOk c =
      ⟨c.countP (fun e => !decide (now - e.2.atime < d)),
       c.length,
       c.filter (fun e => decide (now - e.2.atime < d)),
       (c.filter (fun e => !decide (now - e.2.atime < d) &&
          (!decide (e.2.atime = e.2.atimefs) && bmdOk e.2))).map Prod.snd⟩ := by
  unfold workCache
  rw [feviat_foldl]
  simp

/-- C1: per tick, the runner maps memory pressure to the eviction age
(OOM 1 min, Extreme 5 min, High 10 min, Normal 1 hour), and the
eviction walk counts every entry in every stripe in `total`, keeps
exactly the entries with `now - atime < d`, evicts (deletes and
counts) the rest, and performs the atime write-back exactly for the
evicted entries whose atime differs from atime-fs (and whose LOM can
be reconstructed from the bucket metadata). -/
theorem lomCacheRunner_tick_eviction :
    (evictAge MemPressure.OOM = minute ∧ evictAge MemPressure.Extreme = 5 * minute ∧
     evictAge MemPressure.High = 10 * minute ∧ evictAge MemPressure.Normal = hour) ∧
    (∀ (p : MemPressure) (now : Int) (bmdOk : lmeta → Bool) (caches : List Cache),
      work false now (evictAge p) bmdOk caches =
        ((caches.map (fun c =>
            c.countP (fun e => !decide (now - e.2.atime < evictAge p)))).sum,
         (caches.map List.length).sum,
         caches.map (fun c => c.filter (fun e => decide (now - e.2.atime < evictAge p))),
         (caches.map (fun c => (c.filter (fun e => !decide (now - e.2.atime < evictAge p) &&
            (!decide (e.2.atime = e.2.atimefs) && bmdOk e.2))).map Prod.snd)).flatten)) := by
  refine ⟨⟨rfl, rfl, rfl, rfl⟩, ?_⟩
  intro p now bmdOk caches
  simp [work, workCache_eq, List.map_map, Function.comp_def]

/-- `EqCksum` holds exactly of two equal non-nil checksums. -/
lemma eqCksum_eq_true_iff (a b : Option Cksum) :
    EqCksum a b = true ↔ ∃ c, a = some c ∧ b = some c := by
  cases a with
  | none => simp [EqCksum]
  | some x =>
    cases b with
    | none => simp [EqCksum]
    | some y =>
      cases x with
      | mk xt xv =>
        cases y with
        | mk yt yv =>
          simp [EqCksum, Cksum.mk.injEq]
          constructor
          · rintro ⟨h1, h2⟩
            exact ⟨h1.symm, h2.symm⟩
          · rintro ⟨h1, h2⟩
            exact ⟨h1.symm, h2.symm⟩

/-- A state is in checksum-validated form: checksumming is off, or the
in-memory checksum equals the (non-empty) checksum of the on-disk
content and the xattr record carries the very same checksum. -/
def cksumValidated (env : VCEnv) (s : ObjState) : Prop :=
  env.cksumType = ChecksumNone ∨
  (env.cksumType = ChecksumXXHash ∧ env.fileOk = true ∧ env.fileCksum ≠ "" ∧
   s.lom.md.cksum = some ⟨ChecksumXXHash, env.fileCksum⟩ ∧
   ∃ xmd : lmeta, s.xattr = Except.ok xmd ∧ xmd.cksum = s.lom.md.cksum)

/-- On a checksum-validated state, `ValidateChecksum(true)` is a no-op
returning no error. -/
lemma validated_vc_ok (env : VCEnv) (s : ObjState) (h : cksumValidated env s) :
    ValidateChecksum env true s = (s, VCOutcome.ok) := by
  rcases h with h | ⟨ht, hfo, hfc, hmd, xmd, hx, hxc⟩
  · simp [ValidateChecksum, h]
  · simp [ValidateChecksum, ValidateDiskChecksum, ht, hx, hmd, hxc, cksumAssertOk,
      storedOf, EqCksum, hfc, hfo, ChecksumXXHash, ChecksumNone]

/-- Any state left behind by a successful `ValidateChecksum(true)` is
in checksum-validated form (the computed file checksum being non-empty,
as `computeXXHash` always yields a non-empty hex string). -/
lemma vc_ok_validated (env : VCEnv) (s s1 : ObjState) (hfc : env.fileCksum ≠ "")
    (h : ValidateChecksum env true s = (s1, VCOutcome.ok)) :
    cksumValidated env s1 := by
  unfold ValidateChecksum at h
  split at h
  · next hnone => exact Or.inl hnone
  · next hnone =>
    split at h
    · simp at h
    · next ha =>
      split at h
      · simp at h
      · next xmd heq =>
        split at h
        · next hcond => simp at hcond
        · next hcond =>
          split at h
          · split at h <;> simp at h
          · next hmis =>
            split at h
            · next hstored => exact absurd hstored.2 (by simp)
            · next hstored =>
              unfold ValidateDiskChecksum at h
              rw [if_neg hnone, if_neg ha] at h
              by_cases hxx : env.cksumType ≠ ChecksumXXHash
              · rw [if_pos hxx] at h
                simp at h
              · rw [if_neg hxx] at h
                have ht : env.cksumType = ChecksumXXHash := Decidable.not_not.mp hxx
                by_cases hfo' : env.fileOk = false
                · rw [if_pos hfo'] at h
                  simp at h
                · rw [if_neg hfo'] at h
                  have hfo : env.fileOk = true := by
                    revert hfo'
                    cases env.fileOk <;> simp
                  by_cases hs0 : storedOf s.lom.md.cksum = ""
                  · rw [if_pos hs0] at h
                    by_cases hp : env.persistOk = false
                    · rw [if_pos hp] at h
                      simp at h
                    · rw [if_neg hp] at h
                      by_cases hq : s.lom.fqn ≠ s.lom.hrwFqn
                      · rw [if_pos hq] at h
                        simp at h
                      · rw [if_neg hq] at h
                        injection h with h1 h2
                        subst h1
                        right
                        refine ⟨ht, hfo, hfc, by simp [ht], ?_⟩
                        refine ⟨_, rfl, ?_⟩
                        simp
                  · rw [if_neg hs0] at h
                    by_cases heqc :
                        EqCksum s.lom.md.cksum (some ⟨env.cksumType, env.fileCksum⟩) = true
                    · rw [if_pos heqc] at h
                      injection h with h1 h2
                      subst h1
                      rcases (eqCksum_eq_true_iff _ _).mp heqc with ⟨c, hc1, hc2⟩
                      have hc : c = ⟨env.cksumType, env.fileCksum⟩ :=
                        (Option.some.inj hc2).symm
                      right
                      refine ⟨ht, hfo, hfc, ?_, ?_⟩
                      · rw [hc1, hc, ht]
                      · have hv : EqCksum s.lom.md.cksum xmd.cksum = true := by
                          by_contra hno
                          have hb : EqCksum s.lom.md.cksum xmd.cksum = false := by
                            revert hno
                            cases EqCksum s.lom.md.cksum xmd.cksum <;> simp
                          apply hmis
                          refine ⟨?_, hb⟩
                          rintro ⟨-, -, hmn⟩
                          rw [hmn] at hc1
                          exact Option.noConfusion hc1
                        rcases (eqCksum_eq_true_iff _ _).mp hv with ⟨c2, hd1, hd2⟩
                        refine ⟨xmd, heq, ?_⟩
                        rw [hd1, hd2]
                    · rw [if_neg heqc] at h
                      by_cases hq : s.lom.fqn ≠ s.lom.hrwFqn
                      · rw [if_pos hq] at h
                        simp at h
                      · rw [if_neg hq] at h
                        simp at h

/-- C8: on an unmodified object (same file checksum, environment held
fixed), a successful `ValidateChecksum(true)` makes a second
`ValidateChecksum(true)` a no-op: it returns no error and leaves the
LOM metadata, the cache, and the persisted xattr record exactly as
after the first call. -/
theorem validateChecksum_true_idempotent (env : VCEnv) (s s1 : ObjState)
    (hfc : env.fileCksum ≠ "")
    (h : ValidateChecksum env true s = (s1, VCOutcome.ok)) :
    ValidateChecksum env true s1 = (s1, VCOutcome.ok) :=
  validated_vc_ok env s1 (vc_ok_validated env s s1 hfc h)

/-- Concrete healthy state: in-memory, xattr, and on-disk checksums
all agree. -/
def sHealthy : ObjState :=
  ⟨{lomC7 with md := {lomC7.md with cksum := some ⟨ChecksumXXHash, "aa11"⟩}},
    [("b/o", {lomC7.md with cksum := some ⟨ChecksumXXHash, "aa11"⟩})],
    Except.ok {lomC7.md with cksum := some ⟨ChecksumXXHash, "aa11"⟩}⟩

/-- C8 witness: a concrete first validation succeeds unchanged, and by
idempotence so does the second. -/
theorem validateChecksum_true_idempotent_witness :
    ValidateChecksum ⟨ChecksumXXHash, true, "aa11", true⟩ true sHealthy =
      (sHealthy, VCOutcome.ok) :=
  validateChecksum_true_idempotent ⟨ChecksumXXHash, true, "aa11", true⟩ sHealthy sHealthy
    (by decide) (by rfl)
